import Mathlib

/-!
Verification of the leaderboard acquisition and change-detection core of
`eth_top_monitor.py` (top-100 ETH holder monitor).

The Python source is shallowly embedded below.  Conventions of the embedding:

* Python dicts preserve insertion order and have unique keys; they are
  modelled as association lists (`SnapMap`) with an in-place `upsert` for
  assignment and `lookupSnap` for `d[k]` / `k in d`.
* Python `set` iteration order is unspecified; `compare_snapshots` iterates
  `new_addrs & old_addrs` and `new_addrs - old_addrs` in the order of the
  `new` map and `old_addrs - new_addrs` in the order of the `old` map.
  Every property proved about these lists is either order-insensitive
  (membership) or about an output of `sorted` with distinct sort keys.
* `float` balances are never compared or computed with anywhere in the
  monitored logic, so they are carried as opaque `Int` payloads.
* Exceptions become `Option`/`Except` values and network effects become
  explicit inputs: a fetch is a function of the (already downloaded) page
  contents, a send is a function of the transport outcome.
-/

/-- The `Holder` dataclass: one ranked item as produced by a source adapter.
`balance_eth` (a Python float) is carried as an opaque `Int` payload. -/
structure Holder where
  rank : Nat
  address : String
  balance_eth : Int
  balance_readable : String
  percent_of_total : Option Int := none
  label : Option String := none
deriving Repr, DecidableEq

/-- One value of the persisted snapshot map:
`{"rank": h.rank, "balance_eth": h.balance_eth, "readable": h.balance_readable}`. -/
structure SnapVal where
  rank : Nat
  balance_eth : Int
  readable : String
deriving Repr, DecidableEq

/-- A Python dict from (normalized) address to snapshot value, modelled as an
insertion-ordered association list with unique keys. -/
abbrev SnapMap := List (String × SnapVal)

/-- Python dict assignment `d[k] = v`: update the value in place if the key is
present, otherwise append the binding at the end. -/
def upsert (m : SnapMap) (k : String) (v : SnapVal) : SnapMap :=
  match m with
  | [] => [(k, v)]
  | (k', v') :: rest => if k' = k then (k, v) :: rest else (k', v') :: upsert rest k v

/-- Python dict lookup `d.get(k)` / `d[k]`. -/
def lookupSnap (m : SnapMap) (k : String) : Option SnapVal :=
  match m with
  | [] => none
  | (k', v) :: rest => if k' = k then some v else lookupSnap rest k

/-- The keys of the map are pairwise distinct (invariant of every Python dict). -/
@[reducible] def keysNodup (m : SnapMap) : Prop := (m.map Prod.fst).Nodup

/-- Python `str.lower()`, character by character.  The identities handled by
the monitor are ASCII hex addresses, for which per-character lowering agrees
with Python's Unicode lowering. -/
def pyLower (s : String) : String := ⟨s.data.map Char.toLower⟩

/-- `holders_to_map`: the dict comprehension
`{h.address.lower(): {"rank": h.rank, "balance_eth": h.balance_eth, "readable": h.balance_readable} for h in holders}`.
Later holders with the same lower-cased address overwrite earlier ones. -/
def holders_to_map (holders : List Holder) : SnapMap :=
  holders.foldl
    (fun m h => upsert m (pyLower h.address) ⟨h.rank, h.balance_eth, h.balance_readable⟩) []

/-- Loop body of the first loop of `compare_snapshots` (over `new_addrs & old_addrs`):
an identity present in both maps with differing ranks yields `(addr, old_rank, new_rank)`. -/
def changeRecord (old : SnapMap) (p : String × SnapVal) : Option (String × Nat × Nat) :=
  match lookupSnap old p.1 with
  | some ov => if ov.rank ≠ p.2.rank then some (p.1, ov.rank, p.2.rank) else none
  | none => none

/-- Loop body of the second loop of `compare_snapshots` (over `new_addrs - old_addrs`). -/
def entrantRecord (old : SnapMap) (p : String × SnapVal) : Option (String × Nat) :=
  match lookupSnap old p.1 with
  | some _ => none
  | none => some (p.1, p.2.rank)

/-- `compare_snapshots(old, new)` returning
`(rank_changes, new_entries, removed)`. -/
def compare_snapshots (old new : SnapMap) :
    List (String × Nat × Nat) × List (String × Nat) × List (String × Nat) :=
  let rank_changes := new.filterMap (changeRecord old)
  let new_entries := new.filterMap (entrantRecord old)
  let removed := old.filterMap (entrantRecord new)
  (rank_changes, new_entries, removed)

/-! ### Basic lemmas about the snapshot-map model -/

theorem lookupSnap_cons (k' : String) (v' : SnapVal) (rest : SnapMap) (k : String) :
    lookupSnap ((k', v') :: rest) k = if k' = k then some v' else lookupSnap rest k := rfl

theorem lookupSnap_eq_some_iff_mem {m : SnapMap} (h : keysNodup m) (k : String)
    (v : SnapVal) : lookupSnap m k = some v ↔ (k, v) ∈ m := by
  induction m with
  | nil => simp [lookupSnap]
  | cons p rest ih =>
    obtain ⟨k', v'⟩ := p
    have h' : k' ∉ rest.map Prod.fst ∧ keysNodup rest := by
      simpa [keysNodup, List.nodup_cons] using h
    by_cases hk : k' = k
    · subst hk
      rw [lookupSnap_cons, if_pos rfl]
      constructor
      · intro hv
        obtain rfl := Option.some.inj hv
        exact List.mem_cons_self _ _
      · intro hm
        rcases List.mem_cons.1 hm with heq | hm'
        · injection heq with h1 h2
          rw [h2]
        · exact absurd (List.mem_map_of_mem Prod.fst hm') h'.1
    · rw [lookupSnap_cons, if_neg hk]
      simp only [List.mem_cons, Prod.mk.injEq]
      rw [ih h'.2]
      constructor
      · exact Or.inr
      · rintro (⟨rfl, -⟩ | hm)
        · exact absurd rfl hk
        · exact hm

theorem mem_of_lookupSnap_eq_some {m : SnapMap} {k : String} {v : SnapVal}
    (h : lookupSnap m k = some v) : (k, v) ∈ m := by
  induction m with
  | nil => simp [lookupSnap] at h
  | cons p rest ih =>
    obtain ⟨k', v'⟩ := p
    by_cases hk : k' = k
    · subst hk
      rw [lookupSnap_cons, if_pos rfl, Option.some_inj] at h
      subst h; exact List.mem_cons_self _ _
    · rw [lookupSnap_cons, if_neg hk] at h
      exact List.mem_cons_of_mem _ (ih h)

theorem lookupSnap_isSome_iff_mem_keys (m : SnapMap) (k : String) :
    (lookupSnap m k).isSome ↔ k ∈ m.map Prod.fst := by
  induction m with
  | nil => simp [lookupSnap]
  | cons p rest ih =>
    obtain ⟨k', v'⟩ := p
    by_cases hk : k' = k
    · subst hk; rw [lookupSnap_cons, if_pos rfl]; simp
    · rw [lookupSnap_cons, if_neg hk]; simp [ih, Ne.symm hk]

theorem changeRecord_of_none {old : SnapMap} {p : String × SnapVal}
    (h : lookupSnap old p.1 = none) : changeRecord old p = none := by
  unfold changeRecord; rw [h]

theorem changeRecord_of_some {old : SnapMap} {p : String × SnapVal} {ov : SnapVal}
    (h : lookupSnap old p.1 = some ov) :
    changeRecord old p =
      if ov.rank ≠ p.2.rank then some (p.1, ov.rank, p.2.rank) else none := by
  unfold changeRecord; rw [h]

theorem entrantRecord_of_none {old : SnapMap} {p : String × SnapVal}
    (h : lookupSnap old p.1 = none) : entrantRecord old p = some (p.1, p.2.rank) := by
  unfold entrantRecord; rw [h]

theorem entrantRecord_of_some {old : SnapMap} {p : String × SnapVal} {ov : SnapVal}
    (h : lookupSnap old p.1 = some ov) : entrantRecord old p = none := by
  unfold entrantRecord; rw [h]

theorem changeRecord_eq_some {old : SnapMap} {p : String × SnapVal}
    {a : String} {o n : Nat} :
    changeRecord old p = some (a, o, n) ↔
      p.1 = a ∧ p.2.rank = n ∧ ∃ ov, lookupSnap old a = some ov ∧ ov.rank = o ∧ o ≠ n := by
  cases hl : lookupSnap old p.1 with
  | none =>
    rw [changeRecord_of_none hl]
    constructor
    · intro h; exact absurd h (by simp)
    · rintro ⟨rfl, -, ov, hov, -⟩
      rw [hl] at hov; exact Option.noConfusion hov
  | some ov =>
    rw [changeRecord_of_some hl]
    by_cases hr : ov.rank = p.2.rank
    · rw [if_neg (not_not_intro hr)]
      constructor
      · intro h; exact absurd h (by simp)
      · rintro ⟨rfl, rfl, ov', hov', rfl, hne⟩
        rw [hl] at hov'
        cases hov'
        exact absurd hr hne
    · rw [if_pos hr]
      constructor
      · intro h
        simp only [Option.some_inj, Prod.mk.injEq] at h
        obtain ⟨rfl, rfl, rfl⟩ := h
        exact ⟨rfl, rfl, ov, hl, rfl, hr⟩
      · rintro ⟨rfl, rfl, ov', hov', rfl, -⟩
        rw [hl] at hov'
        cases hov'
        rfl

theorem entrantRecord_eq_some {old : SnapMap} {p : String × SnapVal}
    {a : String} {r : Nat} :
    entrantRecord old p = some (a, r) ↔
      p.1 = a ∧ p.2.rank = r ∧ lookupSnap old a = none := by
  cases hl : lookupSnap old p.1 with
  | none =>
    rw [entrantRecord_of_none hl]
    simp only [Option.some_inj, Prod.mk.injEq]
    constructor
    · rintro ⟨rfl, rfl⟩; exact ⟨rfl, rfl, hl⟩
    · rintro ⟨rfl, rfl, -⟩; exact ⟨rfl, rfl⟩
  | some ov =>
    rw [entrantRecord_of_some hl]
    constructor
    · intro h; exact absurd h (by simp)
    · rintro ⟨rfl, -, hnone⟩
      rw [hl] at hnone; exact Option.noConfusion hnone

/-! ### C1 and C2 -/

/-- C1: for every pair of snapshot maps (with the dict invariant of distinct
keys), `compare_snapshots` computes exactly: rank changes are the identities
present in both maps with differing ranks, carried as
`(identity, old_rank, new_rank)`; entrants are the identities in `new` and
not in `old`, carried with their new rank; exits are the identities in `old`
and not in `new`, carried with their old rank. -/
theorem C1_compare_snapshots_sets (old new : SnapMap)
    (hold : keysNodup old) (hnew : keysNodup new)
    (a : String) (o n r : Nat) :
    ((a, o, n) ∈ (compare_snapshots old new).1 ↔
      (∃ ov, lookupSnap old a = some ov ∧ ov.rank = o) ∧
      (∃ nv, lookupSnap new a = some nv ∧ nv.rank = n) ∧ o ≠ n) ∧
    ((a, r) ∈ (compare_snapshots old new).2.1 ↔
      lookupSnap old a = none ∧ ∃ nv, lookupSnap new a = some nv ∧ nv.rank = r) ∧
    ((a, r) ∈ (compare_snapshots old new).2.2 ↔
      lookupSnap new a = none ∧ ∃ ov, lookupSnap old a = some ov ∧ ov.rank = r) := by
  refine ⟨?_, ?_, ?_⟩
  · simp only [compare_snapshots, List.mem_filterMap]
    constructor
    · rintro ⟨p, hp, hrec⟩
      obtain ⟨rfl, hn, ov, hov, rfl, hne⟩ := changeRecord_eq_some.1 hrec
      exact ⟨⟨ov, hov, rfl⟩,
        ⟨p.2, (lookupSnap_eq_some_iff_mem hnew _ _).2 (by simpa using hp), hn⟩, hne⟩
    · rintro ⟨⟨ov, hov, rfl⟩, ⟨nv, hnv, rfl⟩, hne⟩
      refine ⟨(a, nv), (lookupSnap_eq_some_iff_mem hnew _ _).1 hnv, ?_⟩
      exact changeRecord_eq_some.2 ⟨rfl, rfl, ov, hov, rfl, hne⟩
  · simp only [compare_snapshots, List.mem_filterMap]
    constructor
    · rintro ⟨p, hp, hrec⟩
      obtain ⟨rfl, hn, hnone⟩ := entrantRecord_eq_some.1 hrec
      exact ⟨hnone, p.2, (lookupSnap_eq_some_iff_mem hnew _ _).2 (by simpa using hp), hn⟩
    · rintro ⟨hnone, nv, hnv, rfl⟩
      exact ⟨(a, nv), (lookupSnap_eq_some_iff_mem hnew _ _).1 hnv,
        entrantRecord_eq_some.2 ⟨rfl, rfl, hnone⟩⟩
  · simp only [compare_snapshots, List.mem_filterMap]
    constructor
    · rintro ⟨p, hp, hrec⟩
      obtain ⟨rfl, hn, hnone⟩ := entrantRecord_eq_some.1 hrec
      exact ⟨hnone, p.2, (lookupSnap_eq_some_iff_mem hold _ _).2 (by simpa using hp), hn⟩
    · rintro ⟨hnone, ov, hov, rfl⟩
      exact ⟨(a, ov), (lookupSnap_eq_some_iff_mem hold _ _).1 hov,
        entrantRecord_eq_some.2 ⟨rfl, rfl, hnone⟩⟩

/-- Witness for C1 at concrete maps: in old map `a↦1`, new map `a↦2, b↦1`,
the record `(a, 1, 2)` is a rank change. -/
theorem C1_compare_snapshots_sets_witness :
    (("a", 1, 2) ∈ (compare_snapshots [("a", ⟨1, 0, "1 ETH"⟩)]
        [("a", ⟨2, 0, "1 ETH"⟩), ("b", ⟨1, 0, "2 ETH"⟩)]).1 ↔
      (∃ ov, lookupSnap [("a", ⟨1, 0, "1 ETH"⟩)] "a" = some ov ∧ ov.rank = 1) ∧
      (∃ nv, lookupSnap [("a", ⟨2, 0, "1 ETH"⟩), ("b", ⟨1, 0, "2 ETH"⟩)] "a" = some nv ∧
        nv.rank = 2) ∧ 1 ≠ 2) :=
  (C1_compare_snapshots_sets [("a", ⟨1, 0, "1 ETH"⟩)]
    [("a", ⟨2, 0, "1 ETH"⟩), ("b", ⟨1, 0, "2 ETH"⟩)]
    (by decide) (by decide) "a" 1 2 1).1

theorem changeRecord_nil (p : String × SnapVal) : changeRecord [] p = none := rfl

theorem entrantRecord_nil (p : String × SnapVal) :
    entrantRecord [] p = some (p.1, p.2.rank) := rfl

/-- C2 counterexample: diffing an empty old map against a one-holder new map
yields that holder as an entrant, not zero entrants. -/
theorem C2_first_run_counterexample :
    (compare_snapshots [] [("a", ⟨1, 0, "1 ETH"⟩)]).2.1 = [("a", 1)] ∧
    (compare_snapshots [] [("a", ⟨1, 0, "1 ETH"⟩)]).2.1 ≠ [] := by
  constructor
  · rfl
  · intro h; exact List.noConfusion h

/-- C2 amended: diffing an empty old map against `B` yields one entrant per
entry of `B` (carrying its new rank), zero exits and zero rank changes; the
first acquired snapshot is therefore reported as entrants rather than
establishing the baseline silently. -/
theorem C2_first_run_amended (B : SnapMap) :
    compare_snapshots [] B = ([], B.map (fun p => (p.1, p.2.rank)), []) := by
  simp only [compare_snapshots, Prod.mk.injEq]
  refine ⟨?_, ?_, rfl⟩
  · induction B with
    | nil => rfl
    | cons p rest ih => simp [List.filterMap_cons, changeRecord_nil, ih]
  · induction B with
    | nil => rfl
    | cons p rest ih => simp [List.filterMap_cons, entrantRecord_nil, ih]

/-- Boolean comparison used to sort rank changes in `job`:
`sorted(rank_changes, key=lambda x: (x[1]-x[2]))`, i.e. by the signed delta
`old_rank - new_rank` computed in `Int` (Python ints do not truncate). -/
def rankDeltaLE (x y : String × Nat × Nat) : Bool :=
  decide (((x.2.1 : Int) - x.2.2) ≤ ((y.2.1 : Int) - y.2.2))

/-- The rank-change report order of `job`: Python `sorted` is a stable merge
sort on the key `old_rank - new_rank`. -/
def sort_rank_changes (cs : List (String × Nat × Nat)) : List (String × Nat × Nat) :=
  cs.mergeSort rankDeltaLE

/-- C8: the emitted rank-change records are a permutation of the computed
rank changes, ordered ascending by the signed delta `old_rank - new_rank`;
on old snapshot `A↦1, B↦2, C↦3` and new snapshot `B↦1, A↦2, D↦3` the records
come out as `[(A,1,2), (B,2,1)]`. -/
theorem C8_rank_change_order :
    (∀ cs : List (String × Nat × Nat),
      (sort_rank_changes cs).Pairwise
        (fun x y => ((x.2.1 : Int) - x.2.2) ≤ ((y.2.1 : Int) - y.2.2)) ∧
      (sort_rank_changes cs).Perm cs) ∧
    sort_rank_changes
        (compare_snapshots
          [("A", ⟨1, 10, "10 ETH"⟩), ("B", ⟨2, 9, "9 ETH"⟩), ("C", ⟨3, 8, "8 ETH"⟩)]
          [("B", ⟨1, 10, "10 ETH"⟩), ("A", ⟨2, 9, "9 ETH"⟩), ("D", ⟨3, 8, "8 ETH"⟩)]).1 =
      [("A", 1, 2), ("B", 2, 1)] := by
  constructor
  · intro cs
    constructor
    · refine (List.sorted_mergeSort ?_ ?_ cs).imp fun h => of_decide_eq_true h
      · intro a b c hab hbc
        have hab' := of_decide_eq_true hab
        have hbc' := of_decide_eq_true hbc
        exact decide_eq_true (le_trans hab' hbc')
      · intro a b
        rcases le_total ((a.2.1 : Int) - a.2.2) ((b.2.1 : Int) - b.2.2) with h | h
        · simp [rankDeltaLE, h]
        · simp [rankDeltaLE, h]
    · exact List.mergeSort_perm cs rankDeltaLE
  · show sort_rank_changes [("B", 2, 1), ("A", 1, 2)] = [("A", 1, 2), ("B", 2, 1)]
    simp [sort_rank_changes, List.mergeSort, List.splitInTwo, List.splitAt,
      List.splitAt.go, List.merge, rankDeltaLE]

/-! ### Source adapters -/

/-- Boolean rank comparison of `sorted(rows, key=lambda h: h.rank)`. -/
def rankLE (a b : Holder) : Bool := decide (a.rank ≤ b.rank)

/-- Row-processing core of `parse_etherscan_accounts_page`: the retrieval of
the HTML document, the header-based location of the accounts table and the
per-row field extraction (malformed rows skipped) are modelled as the given
list of already-extracted rows; the function then performs
`rows_sorted = sorted(rows, key=lambda h: h.rank)[:100]` (a stable sort). -/
def parse_etherscan_accounts_page (rows : List Holder) : List Holder :=
  (rows.mergeSort rankLE).take 100

/-- Inner loop of `fetch_top_from_etherscan`: append the parsed holders of one
page to the accumulator, stopping once 100 are collected and skipping a holder
exactly when its raw address equals one already collected
(`if not any(other.address == h.address for other in holders)` — a
case-sensitive comparison on the unnormalized address). -/
def dedupAppend (holders parsed : List Holder) : List Holder :=
  parsed.foldl
    (fun acc h =>
      if 100 ≤ acc.length then acc
      else if acc.any fun other => other.address == h.address then acc
      else acc ++ [h])
    holders

/-- Page loop of `fetch_top_from_etherscan`: `pages` carries the extracted row
lists of the successively downloaded page documents
(`while len(holders) < 100 and page <= pages_needed`). -/
def fetchPages : List (List Holder) → List Holder → List Holder
  | [], holders => holders
  | rows :: rest, holders =>
    if holders.length < 100 then
      fetchPages rest (dedupAppend holders (parse_etherscan_accounts_page rows))
    else holders

/-- `fetch_top_from_etherscan(pages_needed=4)`: iterate over at most
`pages_needed` pages and return `holders[:100]`. -/
def fetch_top_from_etherscan (pages : List (List Holder))
    (pages_needed : Nat := 4) : List Holder :=
  (fetchPages (pages.take pages_needed) []).take 100

/-- `fetch_top_with_bitquery`: raises (`none`) when no `BITQUERY_API_KEY` is
configured; otherwise every item of the (already transport-successful) GraphQL
response is mapped to a `Holder`, with sequential ranks from
`enumerate(..., start=1)`, the address exactly as delivered, and
`str(bal) + " ETH"` as the readable form.  No truncation and no plausibility
check is applied to the response. -/
def fetch_top_with_bitquery (keyConfigured : Bool)
    (items : List (String × Int)) : Option (List Holder) :=
  if keyConfigured then
    some ((items.enumFrom 1).map fun p =>
      { rank := p.1, address := p.2.1, balance_eth := p.2.2,
        balance_readable := toString p.2.2 ++ " ETH" })
  else none

/-! ### Lemmas about the adapters -/

theorem parse_etherscan_accounts_page_sorted (rows : List Holder) :
    (parse_etherscan_accounts_page rows).Pairwise fun a b => a.rank ≤ b.rank := by
  have hs : (rows.mergeSort rankLE).Pairwise fun a b => a.rank ≤ b.rank := by
    refine (List.sorted_mergeSort ?_ ?_ rows).imp fun h => of_decide_eq_true h
    · intro a b c hab hbc
      exact decide_eq_true (le_trans (of_decide_eq_true hab) (of_decide_eq_true hbc))
    · intro a b
      rcases Nat.le_total a.rank b.rank with h | h
      · simp [rankLE, h]
      · simp [rankLE, h]
  exact hs.sublist (List.take_sublist _ _)

theorem parse_etherscan_accounts_page_of_sorted {rows : List Holder}
    (h : rows.Pairwise fun a b => a.rank ≤ b.rank) :
    parse_etherscan_accounts_page rows = rows.take 100 := by
  have h2 : rows.Pairwise fun a b => rankLE a b = true :=
    h.imp fun hab => decide_eq_true hab
  unfold parse_etherscan_accounts_page
  rw [List.mergeSort_of_sorted h2]

theorem dedupAppend_sublist :
    ∀ (parsed acc : List Holder), List.Sublist (dedupAppend acc parsed) (acc ++ parsed)
  | [], acc => by simp [dedupAppend]
  | h :: t, acc => by
    have step : dedupAppend acc (h :: t) =
        dedupAppend
          (if 100 ≤ acc.length then acc
           else if acc.any fun other => other.address == h.address then acc
           else acc ++ [h]) t := rfl
    rw [step]
    split
    · exact (dedupAppend_sublist t acc).trans
        (((List.sublist_cons_self h t).append_left acc))
    · split
      · exact (dedupAppend_sublist t acc).trans
          (((List.sublist_cons_self h t).append_left acc))
      · have := dedupAppend_sublist t (acc ++ [h])
        rwa [List.append_assoc, List.singleton_append] at this

theorem fetchPages_sublist :
    ∀ (pages : List (List Holder)) (acc : List Holder),
      List.Sublist (fetchPages pages acc)
        (acc ++ (pages.map parse_etherscan_accounts_page).flatten)
  | [], acc => by simp [fetchPages]
  | rows :: rest, acc => by
    simp only [List.map_cons, List.flatten_cons]
    rw [show fetchPages (rows :: rest) acc =
        if acc.length < 100 then
          fetchPages rest (dedupAppend acc (parse_etherscan_accounts_page rows))
        else acc from rfl]
    split
    · have h1 := fetchPages_sublist rest (dedupAppend acc (parse_etherscan_accounts_page rows))
      have h2 := (dedupAppend_sublist (parse_etherscan_accounts_page rows) acc).append_right
        ((rest.map parse_etherscan_accounts_page).flatten)
      have h3 := h1.trans h2
      rwa [List.append_assoc] at h3
    · exact List.sublist_append_left _ _

/-- A holder with only rank and address populated, as parsed from a row whose
remaining fields carry fixed test values. -/
def mkHolder (r : Nat) (a : String) : Holder :=
  { rank := r, address := a, balance_eth := 0, balance_readable := "0 ETH" }

theorem fetch_two_singleton_pages_of_ne {h1 h2 : Holder}
    (hne : h1.address ≠ h2.address) :
    fetch_top_from_etherscan [[h1], [h2]] = [h1, h2] := by
  have p1 : parse_etherscan_accounts_page [h1] = [h1] :=
    @parse_etherscan_accounts_page_of_sorted [h1] (by simp)
  have p2 : parse_etherscan_accounts_page [h2] = [h2] :=
    @parse_etherscan_accounts_page_of_sorted [h2] (by simp)
  have hb : (h1.address == h2.address) = false := beq_eq_false_iff_ne.2 hne
  calc fetch_top_from_etherscan [[h1], [h2]]
      = (fetchPages [[h2]] (dedupAppend [] (parse_etherscan_accounts_page [h1]))).take 100 :=
        rfl
    _ = (fetchPages [[h2]] [h1]).take 100 := by rw [p1]; rfl
    _ = (fetchPages [] (dedupAppend [h1] (parse_etherscan_accounts_page [h2]))).take 100 :=
        rfl
    _ = (dedupAppend [h1] [h2]).take 100 := by rw [p2]; rfl
    _ = [h1, h2] := by
        simp only [dedupAppend, List.foldl_cons, List.foldl_nil]
        rw [if_neg (by simp : ¬ 100 ≤ [h1].length), if_neg (by simp [hb])]
        rfl

/-- C7 counterexample: two successfully fetched pages carrying ranks 5 and 3
make the Etherscan acquisition return the ranks out of ascending order
(no re-sort happens across pages), and a Bitquery response of 101 items is
returned in full, exceeding the 100-entry bound. -/
theorem C7_counterexample :
    (fetch_top_from_etherscan [[mkHolder 5 "a"], [mkHolder 3 "b"]]).map Holder.rank
        = [5, 3] ∧
    ¬ (fetch_top_from_etherscan [[mkHolder 5 "a"], [mkHolder 3 "b"]]).Pairwise
        (fun x y => x.rank ≤ y.rank) ∧
    (fetch_top_with_bitquery true (List.replicate 101 ("a", 0))).map List.length
        = some 101 := by
  have e : fetch_top_from_etherscan [[mkHolder 5 "a"], [mkHolder 3 "b"]]
      = [mkHolder 5 "a", mkHolder 3 "b"] :=
    fetch_two_singleton_pages_of_ne (by decide)
  refine ⟨?_, ?_, ?_⟩
  · rw [e]; rfl
  · rw [e]; decide
  · simp [fetch_top_with_bitquery]

/-- C7 amended: every Etherscan acquisition yields at most 100 entries; each
single page parse is rank-sorted ascending; the multi-page result is the
in-order concatenation of the per-page parses minus duplicates and is sorted
ascending whenever that concatenation is (e.g. when later pages carry larger
ranks), but not for arbitrary page contents; the Bitquery acquisition yields
one entry per response item with sequential ranks `1..k` (hence sorted
ascending), with `k` bounded by 100 only if the response honors the requested
limit. -/
theorem C7_acquisition_amended :
    (∀ (pages : List (List Holder)) (pn : Nat),
        (fetch_top_from_etherscan pages pn).length ≤ 100) ∧
    (∀ rows : List Holder,
        (parse_etherscan_accounts_page rows).Pairwise fun a b => a.rank ≤ b.rank) ∧
    (∀ (pages : List (List Holder)) (pn : Nat),
        (((pages.take pn).map parse_etherscan_accounts_page).flatten).Pairwise
            (fun a b => a.rank ≤ b.rank) →
        (fetch_top_from_etherscan pages pn).Pairwise fun a b => a.rank ≤ b.rank) ∧
    (∀ (items : List (String × Int)) (hs : List Holder),
        fetch_top_with_bitquery true items = some hs →
        hs.length = items.length ∧
        hs.map Holder.rank = List.range' 1 items.length ∧
        hs.Pairwise fun a b => a.rank ≤ b.rank) := by
  refine ⟨?_, parse_etherscan_accounts_page_sorted, ?_, ?_⟩
  · intro pages pn
    unfold fetch_top_from_etherscan
    rw [List.length_take]
    exact Nat.min_le_left _ _
  · intro pages pn hsorted
    have h1 := fetchPages_sublist (pages.take pn) []
    rw [List.nil_append] at h1
    exact (hsorted.sublist h1).sublist (List.take_sublist _ _)
  · intro items hs h
    have hmap : hs = (items.enumFrom 1).map fun p =>
        { rank := p.1, address := p.2.1, balance_eth := p.2.2,
          balance_readable := toString p.2.2 ++ " ETH" : Holder} := by
      unfold fetch_top_with_bitquery at h
      rw [if_pos rfl] at h
      exact (Option.some.inj h).symm
    subst hmap
    refine ⟨by simp, ?_, ?_⟩
    · rw [List.map_map]
      have : (Holder.rank ∘ fun p : Nat × String × Int =>
          { rank := p.1, address := p.2.1, balance_eth := p.2.2,
            balance_readable := toString p.2.2 ++ " ETH" : Holder}) = Prod.fst := rfl
      rw [this, List.enumFrom_map_fst]
    · rw [List.pairwise_map]
      have hlt := List.pairwise_lt_range' 1 items.length 1
      have := (List.pairwise_le_range' 1 items.length 1).sublist (List.Sublist.refl _)
      have hple : ((items.enumFrom 1).map Prod.fst).Pairwise (· ≤ ·) := by
        rw [List.enumFrom_map_fst]
        exact List.pairwise_le_range' 1 items.length 1
      rw [List.pairwise_map] at hple
      exact hple

/-- Witness for C7 amended: a sorted pair of singleton pages yields a sorted
acquisition, and a one-item Bitquery response yields one rank-1 entry. -/
theorem C7_acquisition_amended_witness :
    (fetch_top_from_etherscan [[mkHolder 1 "a"], [mkHolder 2 "b"]] 4).Pairwise
        (fun a b => a.rank ≤ b.rank) ∧
    ([{ rank := 1, address := "x", balance_eth := 5, balance_readable := "5 ETH" : Holder}].map
        Holder.rank = List.range' 1 [(("x" : String), (5 : Int))].length ∧
      [{ rank := 1, address := "x", balance_eth := 5, balance_readable := "5 ETH" : Holder}].Pairwise
        fun a b => a.rank ≤ b.rank) := by
  constructor
  · refine C7_acquisition_amended.2.2.1 [[mkHolder 1 "a"], [mkHolder 2 "b"]] 4 ?_
    have p1 : parse_etherscan_accounts_page [mkHolder 1 "a"] = [mkHolder 1 "a"] :=
      @parse_etherscan_accounts_page_of_sorted [mkHolder 1 "a"] (by simp)
    have p2 : parse_etherscan_accounts_page [mkHolder 2 "b"] = [mkHolder 2 "b"] :=
      @parse_etherscan_accounts_page_of_sorted [mkHolder 2 "b"] (by simp)
    show (List.map parse_etherscan_accounts_page
        [[mkHolder 1 "a"], [mkHolder 2 "b"]]).flatten.Pairwise _
    rw [List.map_cons, List.map_cons, List.map_nil, p1, p2]
    decide
  · exact (C7_acquisition_amended.2.2.2 [("x", 5)]
      [{ rank := 1, address := "x", balance_eth := 5, balance_readable := "5 ETH" }]
      rfl).2

theorem upsert_cons (k0 : String) (v0 : SnapVal) (rest : SnapMap) (k : String)
    (v : SnapVal) :
    upsert ((k0, v0) :: rest) k v =
      if k0 = k then (k, v) :: rest else (k0, v0) :: upsert rest k v := rfl

theorem lookupSnap_upsert (m : SnapMap) (k : String) (v : SnapVal) (k' : String) :
    lookupSnap (upsert m k v) k' = if k = k' then some v else lookupSnap m k' := by
  induction m with
  | nil => rfl
  | cons p rest ih =>
    obtain ⟨k0, v0⟩ := p
    by_cases h0 : k0 = k
    · subst h0
      rw [upsert_cons, if_pos rfl]
      by_cases h1 : k0 = k'
      · rw [lookupSnap_cons, if_pos h1, if_pos h1]
      · rw [lookupSnap_cons, if_neg h1, if_neg h1, lookupSnap_cons, if_neg h1]
    · rw [upsert_cons, if_neg h0]
      by_cases h1 : k0 = k'
      · have h2 : k ≠ k' := fun he => h0 (h1.trans he.symm)
        rw [lookupSnap_cons, if_pos h1, if_neg h2, lookupSnap_cons, if_pos h1]
      · rw [lookupSnap_cons, if_neg h1, ih, lookupSnap_cons, if_neg h1]

theorem lookupSnap_foldl_upsert (hs : List Holder) (m : SnapMap) (k : String) :
    (lookupSnap
        (hs.foldl
          (fun m h => upsert m (pyLower h.address) ⟨h.rank, h.balance_eth, h.balance_readable⟩)
          m) k).isSome ↔
      (lookupSnap m k).isSome ∨ k ∈ hs.map fun h => pyLower h.address := by
  induction hs generalizing m with
  | nil => simp
  | cons h t ih =>
    rw [List.foldl_cons, ih, lookupSnap_upsert]
    by_cases hk : pyLower h.address = k
    · simp [hk]
    · have hk' : ¬ k = pyLower h.address := fun he => hk he.symm
      simp [hk, hk', List.mem_cons]

/-- C9 counterexample: two pages carrying the addresses `0xAB` and `0xab`,
which differ only by letter case, both survive the Etherscan cross-page
deduplication (it compares raw addresses), and only collapse to a single
identity later, when `holders_to_map` lower-cases them into snapshot keys —
so they are not treated as the same identity everywhere downstream. -/
theorem C9_normalization_counterexample :
    (fetch_top_from_etherscan [[mkHolder 1 "0xAB"], [mkHolder 2 "0xab"]]).map
        Holder.address = ["0xAB", "0xab"] ∧
    (holders_to_map (fetch_top_from_etherscan
        [[mkHolder 1 "0xAB"], [mkHolder 2 "0xab"]])).map Prod.fst = ["0xab"] := by
  have e : fetch_top_from_etherscan [[mkHolder 1 "0xAB"], [mkHolder 2 "0xab"]]
      = [mkHolder 1 "0xAB", mkHolder 2 "0xab"] :=
    fetch_two_singleton_pages_of_ne (by decide)
  rw [e]
  exact ⟨rfl, rfl⟩

/-- C9 amended: case-folding is applied once, but at the snapshot-map boundary
(`holders_to_map`), not at `Holder` creation: the snapshot keys are exactly
the lower-cased fetched addresses, so snapshot diffing operates on the
canonical lower-cased key space; the Etherscan cross-page deduplication,
however, runs before that boundary and compares raw addresses
case-sensitively, so two fetched addresses differing only by case are kept as
distinct entries there. -/
theorem C9_normalization_amended :
    (∀ (hs : List Holder) (k : String),
        (lookupSnap (holders_to_map hs) k).isSome ↔
          k ∈ hs.map fun h => pyLower h.address) ∧
    (∀ h1 h2 : Holder, h1.address ≠ h2.address →
        fetch_top_from_etherscan [[h1], [h2]] = [h1, h2]) := by
  constructor
  · intro hs k
    unfold holders_to_map
    rw [lookupSnap_foldl_upsert]
    simp [lookupSnap]
  · exact fun h1 h2 hne => fetch_two_singleton_pages_of_ne hne

/-- Witness for C9 amended: instantiated at the case-variant pair
`0xAB` / `0xab`, whose raw addresses differ, so both are fetched. -/
theorem C9_normalization_amended_witness :
    fetch_top_from_etherscan [[mkHolder 1 "0xAB"], [mkHolder 2 "0xab"]]
      = [mkHolder 1 "0xAB", mkHolder 2 "0xab"] :=
  C9_normalization_amended.2 (mkHolder 1 "0xAB") (mkHolder 2 "0xab") (by decide)

/-! ### Notification transport and snapshot store -/

/-- The HTTP response object delivered by `requests.post` when no transport
exception occurred. -/
structure Response where
  status_code : Nat
  text : String
deriving Repr, DecidableEq

/-- `send_telegram`: the transport outcome of `requests.post` is the input
(`Except.error` = a transport exception was raised while sending).  The
`requests.post` call stands before the `try` block, so a transport exception
propagates to the caller; only `resp.raise_for_status()` is inside the `try`,
and the exception it raises for an HTTP error status (code 400 and above) is
caught and logged.  The result is `Except.error` when `send_telegram` itself
raises, and `Except.ok logged` when it returns, `logged` recording whether a
failed status was logged by the handler. -/
def send_telegram (postResult : Except String Response) : Except String Bool :=
  match postResult with
  | .error e => .error e
  | .ok resp => .ok (decide (400 ≤ resp.status_code))

/-- C6 counterexample: a transport exception raised while sending (for
example a connection error) propagates out of `send_telegram` instead of
being logged and swallowed. -/
theorem C6_counterexample :
    send_telegram (.error "ConnectionError") = .error "ConnectionError" ∧
    (send_telegram (.error "ConnectionError")).isOk = false := ⟨rfl, rfl⟩

/-- C6 amended: `send_telegram` returns normally for every delivered HTTP
response, logging the failure when the status is an error status (400 or
above); but a transport exception raised by `requests.post` itself is outside
the `try` block and propagates to the caller, which can abort the calling
cycle's productive work. -/
theorem C6_send_amended :
    (∀ resp : Response, send_telegram (.ok resp) = .ok (decide (400 ≤ resp.status_code))) ∧
    (∀ resp : Response, (send_telegram (.ok resp)).isOk = true) ∧
    (∀ e : String, send_telegram (.error e) = .error e) :=
  ⟨fun _ => rfl, fun _ => rfl, fun _ => rfl⟩

/-- A failure mode of a file write: the `open` call itself raises, or the
incremental serialization raises after `k` chunks have been written. -/
inductive WriteFault where
  | openFail
  | midWrite (k : Nat)
deriving Repr, DecidableEq

/-- `save_snapshot` at the file level: `open(SNAPSHOT_FILE, "w")` truncates
the file, then `json.dump` writes the serialized document incrementally as a
sequence of `chunks`; `fault` injects an exception at open time or between
chunk writes.  The surrounding `try/except` swallows the exception (logging
it), so the call always returns; the returned value is the resulting file
content (`none` = no file). -/
def save_snapshot (disk : Option String) (chunks : List String)
    (fault : Option WriteFault) : Option String :=
  match fault with
  | some .openFail => disk
  | some (.midWrite k) => some (String.join (chunks.take k))
  | none => some (String.join chunks)

/-- C5 counterexample: with previous content `old snapshot` on disk and a
serialization failure after the first of two chunks, the file afterwards holds
neither the previous document nor the new one — the write-in-place with
truncation destroys the old snapshot and leaves a partial document. -/
theorem C5_counterexample :
    save_snapshot (some "old snapshot") ["new ", "snapshot"]
        (some (WriteFault.midWrite 1)) = some "new " ∧
    save_snapshot (some "old snapshot") ["new ", "snapshot"]
        (some (WriteFault.midWrite 1)) ≠ some "old snapshot" ∧
    save_snapshot (some "old snapshot") ["new ", "snapshot"]
        (some (WriteFault.midWrite 1)) ≠ some (String.join ["new ", "snapshot"]) := by
  refine ⟨rfl, ?_, ?_⟩ <;> decide

/-- C5 amended: a fault-free save replaces the document in full, and an open
failure leaves the previous file untouched; but a failure during the
incremental write leaves a prefix of the new document in place of the
previous snapshot (no atomic whole-document replacement is performed), and in
every case the exception is swallowed after logging, so the call returns
normally. -/
theorem C5_save_amended (disk : Option String) (chunks : List String)
    (fault : Option WriteFault) :
    (fault = none → save_snapshot disk chunks fault = some (String.join chunks)) ∧
    (fault = some WriteFault.openFail → save_snapshot disk chunks fault = disk) ∧
    (∀ k, fault = some (WriteFault.midWrite k) →
        save_snapshot disk chunks fault = some (String.join (chunks.take k))) ∧
    (save_snapshot disk chunks fault = disk ∨
      ∃ k, save_snapshot disk chunks fault = some (String.join (chunks.take k))) := by
  refine ⟨?_, ?_, ?_, ?_⟩
  · rintro rfl; rfl
  · rintro rfl; rfl
  · rintro k rfl; rfl
  · match fault with
    | none => exact Or.inr ⟨chunks.length, by rw [List.take_length]; rfl⟩
    | some .openFail => exact Or.inl rfl
    | some (.midWrite k) => exact Or.inr ⟨k, rfl⟩

/-- Witness for C5 amended: at a concrete disk state, chunk list and mid-write
fault, the file ends up holding exactly the first chunk. -/
theorem C5_save_amended_witness :
    save_snapshot (some "old snapshot") ["a", "b"] (some (WriteFault.midWrite 1))
      = some (String.join (["a", "b"].take 1)) :=
  (C5_save_amended (some "old snapshot") ["a", "b"]
    (some (WriteFault.midWrite 1))).2.2.1 1 rfl

/-! ### The poll cycle (`job`) -/

/-- Configuration and per-cycle environment of one `job` invocation; the
outcomes of the network effects are explicit inputs.  `etherscanPages` is
`none` when `fetch_top_from_etherscan` raises (no parsable accounts table on
any tried document), otherwise it carries the extracted row lists of the
downloaded pages.  `bitqueryItems` is `none` when the Bitquery request raises
a transport or HTTP error.  `changeSendFails` / `fullSendFails` inject a
transport exception into the corresponding `send_telegram` calls (an HTTP
error status is swallowed inside `send_telegram` and does not fail the
cycle). -/
structure Env where
  send_full_every : Nat
  bitquery_key : Bool
  etherscanPages : Option (List (List Holder))
  bitqueryItems : Option (List (String × Int))
  changeSendFails : Bool
  fullSendFails : Bool
  saveFault : Option WriteFault
  timestamp : Nat
deriving Repr, DecidableEq

/-- The persisted snapshot document
`{"timestamp": int(time.time()), "holders_map": new_map}`. -/
structure Snapshot where
  timestamp : Nat
  holders_map : SnapMap
deriving Repr, DecidableEq

/-- The snapshot file as `load_snapshot` can find it: absent, a readable
snapshot document, or unreadable content (for example the partial document
left behind by an interrupted save). -/
inductive DiskFile where
  | absent
  | good (snap : Snapshot)
  | corrupt
deriving Repr, DecidableEq

/-- `load_snapshot()` followed by `old_snapshot.get("holders_map", {})`: a
missing or unreadable file degrades to the empty map (logged, never raised). -/
def load_holders_map : DiskFile → SnapMap
  | .good s => s.holders_map
  | _ => []

/-- The `save_snapshot` call viewed at the level of `DiskFile`: a fault-free
save stores the document, an open failure leaves the file as it was, and an
interrupted write leaves unreadable partial content (`save_snapshot` gives
the file-level contents). -/
def applySave (disk : DiskFile) (snap : Snapshot) (fault : Option WriteFault) :
    DiskFile :=
  match fault with
  | none => .good snap
  | some .openFail => disk
  | some (.midWrite _) => .corrupt

/-- The backup branch of `job`'s acquisition: on a primary failure the
Bitquery adapter is tried only when `BITQUERY_API_KEY` is configured;
otherwise the original exception is re-raised (`none`). -/
def tryBackup (env : Env) : Option (List Holder) :=
  if env.bitquery_key then
    match env.bitqueryItems with
    | some items => fetch_top_with_bitquery true items
    | none => none
  else none

/-- The acquisition step of `job`: fetch from Etherscan, treat an empty or
short result as a failure (`if not holders or len(holders) < 10: raise`), and
on any failure fall back to Bitquery if configured.  `none` = the cycle's
acquisition raised. -/
def acquire (env : Env) : Option (List Holder) :=
  match env.etherscanPages with
  | some pages =>
      if (fetch_top_from_etherscan pages).length < 10 then tryBackup env
      else some (fetch_top_from_etherscan pages)
  | none => tryBackup env

/-- Result of one `job` invocation: the snapshot file afterwards, the cycle
counter afterwards, whether the full listing was emitted, and whether the
top-level `except` handler ran (reporting the error). -/
structure JobResult where
  disk : DiskFile
  polls_done : Nat
  fullListingSent : Bool
  errorReported : Bool
deriving Repr, DecidableEq

/-- `job(state)`: one poll cycle.  A transport failure of a change-report
send or of a full-listing send aborts the cycle (such an exception is caught
only by the top-level handler, which reports the error and leaves the
snapshot unwritten); a save fault is swallowed inside `save_snapshot` and
does not abort the cycle. -/
def job (env : Env) (disk : DiskFile) (polls : Nat) : JobResult :=
  match acquire env with
  | none =>
    { disk := disk, polls_done := polls, fullListingSent := false,
      errorReported := true }
  | some holders =>
    let new_map := holders_to_map holders
    let old_map := load_holders_map disk
    let d := compare_snapshots old_map new_map
    let hasChanges := !d.1.isEmpty || !d.2.1.isEmpty || !d.2.2.isEmpty
    if hasChanges && env.changeSendFails then
      { disk := disk, polls_done := polls, fullListingSent := false,
        errorReported := true }
    else
      let fullDue := decide (0 < env.send_full_every) &&
        decide ((polls + 1) % env.send_full_every = 0)
      if fullDue && env.fullSendFails then
        { disk := disk, polls_done := polls + 1, fullListingSent := false,
          errorReported := true }
      else
        { disk := applySave disk
            { timestamp := env.timestamp, holders_map := new_map } env.saveFault,
          polls_done := polls + 1, fullListingSent := fullDue,
          errorReported := false }

theorem fetch_single_sorted_page {rows : List Holder}
    (hsorted : rows.Pairwise fun a b => a.rank ≤ b.rank)
    (hlen : rows.length ≤ 100)
    (hnodup : dedupAppend [] rows = rows) :
    fetch_top_from_etherscan [rows] = rows := by
  have htake : rows.take 100 = rows := List.take_of_length_le hlen
  show (fetchPages [rows] []).take 100 = rows
  rw [show fetchPages [rows] [] =
      dedupAppend [] (parse_etherscan_accounts_page rows) from rfl]
  rw [parse_etherscan_accounts_page_of_sorted hsorted, htake, hnodup, htake]

/-- C3: when acquisition fails — the primary fetch raises or returns fewer
than 10 entries, and no configured backup delivers a result — the cycle
writes no snapshot, does not advance the cycle counter, sends no full
listing, and reports the failure through the top-level handler. -/
theorem C3_failed_acquisition_preserves_snapshot (env : Env) (disk : DiskFile)
    (polls : Nat)
    (hprim : env.etherscanPages = none ∨
      ∃ pages, env.etherscanPages = some pages ∧
        (fetch_top_from_etherscan pages).length < 10)
    (hback : env.bitquery_key = false ∨ env.bitqueryItems = none) :
    job env disk polls =
      { disk := disk, polls_done := polls, fullListingSent := false,
        errorReported := true } := by
  have hb : tryBackup env = none := by
    unfold tryBackup
    rcases hback with h | h
    · simp [h]
    · simp [h]
  have ha : acquire env = none := by
    unfold acquire
    rcases hprim with h | ⟨pages, hp, hlen⟩
    · rw [h]; exact hb
    · rw [hp]
      show (if (fetch_top_from_etherscan pages).length < 10 then tryBackup env
        else some (fetch_top_from_etherscan pages)) = none
      rw [if_pos hlen]; exact hb
  unfold job
  rw [ha]

/-- The environment of a cycle on which the Etherscan fetch raises and no
backup credential is configured. -/
def envNoBackup : Env :=
  { send_full_every := 144, bitquery_key := false, etherscanPages := none,
    bitqueryItems := none, changeSendFails := false, fullSendFails := false,
    saveFault := none, timestamp := 0 }

/-- Witness for C3: with both tiers unavailable, a populated snapshot file is
left exactly as it was. -/
theorem C3_failed_acquisition_preserves_snapshot_witness :
    job envNoBackup (DiskFile.good ⟨5, [("a", ⟨1, 0, "1 ETH"⟩)]⟩) 7 =
      { disk := DiskFile.good ⟨5, [("a", ⟨1, 0, "1 ETH"⟩)]⟩, polls_done := 7,
        fullListingSent := false, errorReported := true } :=
  C3_failed_acquisition_preserves_snapshot envNoBackup
    (DiskFile.good ⟨5, [("a", ⟨1, 0, "1 ETH"⟩)]⟩) 7 (Or.inl rfl) (Or.inl rfl)

/-- A page of five well-formed rows — below the plausibility threshold. -/
def fivePage : List Holder :=
  [mkHolder 1 "e1", mkHolder 2 "e2", mkHolder 3 "e3", mkHolder 4 "e4",
   mkHolder 5 "e5"]

theorem fetch_fivePage : fetch_top_from_etherscan [fivePage] = fivePage :=
  fetch_single_sorted_page (by decide) (by decide) rfl

/-- Three Bitquery response items. -/
def threeItems : List (String × Int) := [("b1", 1), ("b2", 2), ("b3", 3)]

/-- The holders built from `threeItems` by the Bitquery adapter. -/
def threeBackup : List Holder :=
  [{ rank := 1, address := "b1", balance_eth := 1, balance_readable := "1 ETH" },
   { rank := 2, address := "b2", balance_eth := 2, balance_readable := "2 ETH" },
   { rank := 3, address := "b3", balance_eth := 3, balance_readable := "3 ETH" }]

/-- The environment of a cycle where the primary result is implausibly short
(5 entries) and the configured backup responds with only 3 items. -/
def envBackupShort : Env :=
  { send_full_every := 144, bitquery_key := true,
    etherscanPages := some [fivePage], bitqueryItems := some threeItems,
    changeSendFails := false, fullSendFails := false, saveFault := none,
    timestamp := 9 }

theorem acquire_envBackupShort : acquire envBackupShort = some threeBackup := by
  unfold acquire
  rw [show envBackupShort.etherscanPages = some [fivePage] from rfl]
  show (if (fetch_top_from_etherscan [fivePage]).length < 10 then
      tryBackup envBackupShort
    else some (fetch_top_from_etherscan [fivePage])) = some threeBackup
  rw [if_pos (by rw [fetch_fivePage]; decide)]
  rfl

/-- C4 counterexample: the query-API backup's result is not
plausibility-checked: with the primary returning 5 entries and the backup
responding with only 3 items, the cycle accepts the 3-entry result as
success, reports no error, and persists a 3-entry snapshot. -/
theorem C4_counterexample :
    acquire envBackupShort = some threeBackup ∧ threeBackup.length = 3 ∧
    (job envBackupShort DiskFile.absent 0).errorReported = false ∧
    (job envBackupShort DiskFile.absent 0).disk =
      DiskFile.good { timestamp := 9, holders_map := holders_to_map threeBackup } := by
  have hj : job envBackupShort DiskFile.absent 0 =
      { disk := DiskFile.good
          { timestamp := 9, holders_map := holders_to_map threeBackup },
        polls_done := 1, fullListingSent := false, errorReported := false } := by
    unfold job
    rw [acquire_envBackupShort]
    rfl
  exact ⟨acquire_envBackupShort, rfl, by rw [hj], by rw [hj]⟩

/-- C4 amended: only the structured-page adapter's result is
plausibility-checked by the orchestration — a primary result shorter than 10
entries is treated as a failure, causing the backup to be attempted if
configured and an acquisition error otherwise; the query-API backup's result
is accepted without any plausibility check, one entry per response item,
however short the response. -/
theorem C4_plausibility_amended :
    (∀ (env : Env) (pages : List (List Holder)),
        env.etherscanPages = some pages →
        (fetch_top_from_etherscan pages).length < 10 →
        acquire env = tryBackup env) ∧
    (∀ env : Env, env.bitquery_key = false → tryBackup env = none) ∧
    (∀ (env : Env) (items : List (String × Int)),
        env.bitquery_key = true → env.bitqueryItems = some items →
        ∃ hs, tryBackup env = some hs ∧ hs.length = items.length) := by
  refine ⟨?_, ?_, ?_⟩
  · intro env pages hp hlen
    unfold acquire
    rw [hp]
    show (if (fetch_top_from_etherscan pages).length < 10 then tryBackup env
      else some (fetch_top_from_etherscan pages)) = tryBackup env
    rw [if_pos hlen]
  · intro env hk
    unfold tryBackup
    simp [hk]
  · intro env items hk hi
    unfold tryBackup
    rw [hk, hi]
    exact ⟨_, rfl, by simp [fetch_top_with_bitquery]⟩

/-- Witness for C4 amended: at the concrete short-primary environment, the
backup path is taken and its 3-item response is accepted. -/
theorem C4_plausibility_amended_witness :
    acquire envBackupShort = tryBackup envBackupShort ∧
    ∃ hs, tryBackup envBackupShort = some hs ∧ hs.length = threeItems.length := by
  constructor
  · exact C4_plausibility_amended.1 envBackupShort [fivePage] rfl
      (by rw [fetch_fivePage]; decide)
  · exact C4_plausibility_amended.2.2 envBackupShort threeItems rfl rfl

/-- A page of ten well-formed rows — exactly at the plausibility threshold. -/
def tenPage : List Holder :=
  [mkHolder 1 "a1", mkHolder 2 "a2", mkHolder 3 "a3", mkHolder 4 "a4",
   mkHolder 5 "a5", mkHolder 6 "a6", mkHolder 7 "a7", mkHolder 8 "a8",
   mkHolder 9 "a9", mkHolder 10 "a10"]

theorem fetch_tenPage : fetch_top_from_etherscan [tenPage] = tenPage :=
  fetch_single_sorted_page (by decide) (by decide) rfl

/-- The environment of a cycle whose acquisition succeeds with ten holders,
whose change report goes through, whose full listing is due
(`SEND_FULL_EVERY = 1`), and whose full-listing send raises a transport
exception. -/
def envFullFail : Env :=
  { send_full_every := 1, bitquery_key := false,
    etherscanPages := some [tenPage], bitqueryItems := none,
    changeSendFails := false, fullSendFails := true, saveFault := none,
    timestamp := 3 }

theorem acquire_envFullFail : acquire envFullFail = some tenPage := by
  unfold acquire
  rw [show envFullFail.etherscanPages = some [tenPage] from rfl]
  show (if (fetch_top_from_etherscan [tenPage]).length < 10 then
      tryBackup envFullFail
    else some (fetch_top_from_etherscan [tenPage])) = some tenPage
  rw [fetch_tenPage]
  rw [if_neg (by decide)]

/-- C10 counterexample: a cycle that fails during the full-listing emission
has already incremented the cycle counter — the counter advances (0 to 1)
although the cycle fails (error reported, snapshot not saved), so the counter
is not incremented only on successful cycles. -/
theorem C10_counterexample :
    job envFullFail DiskFile.absent 0 =
      { disk := DiskFile.absent, polls_done := 1, fullListingSent := false,
        errorReported := true } := by
  unfold job
  rw [acquire_envFullFail]
  rfl

/-- C10 amended: the cycle counter advances by exactly one on every cycle
that passes the change-reporting point — after change reporting, before the
full-listing emission and the snapshot save — and stays unchanged when the
cycle fails earlier: on an acquisition failure, and equally on a
change-report send failure (an acquisition that succeeded with a nonempty
diff whose report send raises: counter unchanged, nothing further sent,
snapshot untouched, error reported); a failure during the full-listing
emission occurs after the increment, so such a failed cycle still counts.
The full listing is emitted exactly on the cycles whose incremented counter
is a positive multiple of `SEND_FULL_EVERY`, counting these counted cycles,
not scheduled invocations. -/
theorem C10_cycle_counter_amended (env : Env) (disk : DiskFile) (polls : Nat) :
    ((job env disk polls).polls_done = polls ∨
      (job env disk polls).polls_done = polls + 1) ∧
    (acquire env = none →
      (job env disk polls).polls_done = polls ∧
      (job env disk polls).fullListingSent = false) ∧
    ((job env disk polls).errorReported = false →
      (job env disk polls).polls_done = polls + 1) ∧
    ((job env disk polls).errorReported = true →
      (job env disk polls).disk = disk) ∧
    ((job env disk polls).fullListingSent = true ↔
      (job env disk polls).polls_done = polls + 1 ∧
      (job env disk polls).errorReported = false ∧
      0 < env.send_full_every ∧ (polls + 1) % env.send_full_every = 0) ∧
    (∀ holders, acquire env = some holders →
      ((!(compare_snapshots (load_holders_map disk) (holders_to_map holders)).1.isEmpty ||
        !(compare_snapshots (load_holders_map disk) (holders_to_map holders)).2.1.isEmpty ||
        !(compare_snapshots (load_holders_map disk) (holders_to_map holders)).2.2.isEmpty) &&
          env.changeSendFails) = true →
      (job env disk polls).polls_done = polls ∧
      (job env disk polls).fullListingSent = false ∧
      (job env disk polls).disk = disk ∧
      (job env disk polls).errorReported = true) := by
  unfold job
  cases hacq : acquire env with
  | none => simp
  | some holders =>
    dsimp only
    split
    next hcond => simp
    next hcond =>
      split
      next hfull =>
        refine ⟨?_, ?_, ?_, ?_, ?_, ?_⟩
        · exact Or.inr rfl
        · intro h; exact Option.noConfusion h
        · intro h; exact absurd h (by simp)
        · intro _; rfl
        · simp
        · intro holders' he hcnd
          obtain rfl := Option.some.inj he
          exact absurd hcnd hcond
      next hfull =>
        refine ⟨?_, ?_, ?_, ?_, ?_, ?_⟩
        · exact Or.inr rfl
        · intro h; exact Option.noConfusion h
        · intro _; rfl
        · intro h; exact absurd h (by simp)
        · simp [Bool.and_eq_true, decide_eq_true_eq]
        · intro holders' he hcnd
          obtain rfl := Option.some.inj he
          exact absurd hcnd hcond

/-- The environment of a cycle whose acquisition succeeds with ten holders
and whose change-report send raises a transport exception. -/
def envChangeFail : Env :=
  { send_full_every := 144, bitquery_key := false,
    etherscanPages := some [tenPage], bitqueryItems := none,
    changeSendFails := true, fullSendFails := false, saveFault := none,
    timestamp := 4 }

theorem acquire_envChangeFail : acquire envChangeFail = some tenPage := by
  unfold acquire
  rw [show envChangeFail.etherscanPages = some [tenPage] from rfl]
  show (if (fetch_top_from_etherscan [tenPage]).length < 10 then
      tryBackup envChangeFail
    else some (fetch_top_from_etherscan [tenPage])) = some tenPage
  rw [fetch_tenPage]
  rw [if_neg (by decide)]

/-- Witness for C10 amended: at a concrete failing-acquisition environment
the counter stays at 7 with no full listing, and at a concrete environment
whose change-report send fails on a nonempty diff the counter stays at 0,
nothing further is sent, the snapshot file is untouched and the error is
reported. -/
theorem C10_cycle_counter_amended_witness :
    ((job envNoBackup (DiskFile.good ⟨5, [("a", ⟨1, 0, "1 ETH"⟩)]⟩) 7).polls_done
        = 7 ∧
     (job envNoBackup (DiskFile.good ⟨5, [("a", ⟨1, 0, "1 ETH"⟩)]⟩) 7).fullListingSent
        = false) ∧
    ((job envChangeFail DiskFile.absent 0).polls_done = 0 ∧
     (job envChangeFail DiskFile.absent 0).fullListingSent = false ∧
     (job envChangeFail DiskFile.absent 0).disk = DiskFile.absent ∧
     (job envChangeFail DiskFile.absent 0).errorReported = true) :=
  ⟨(C10_cycle_counter_amended envNoBackup
      (DiskFile.good ⟨5, [("a", ⟨1, 0, "1 ETH"⟩)]⟩) 7).2.1 rfl,
   (C10_cycle_counter_amended envChangeFail DiskFile.absent 0).2.2.2.2.2
      tenPage acquire_envChangeFail rfl⟩
